import Mathlib

/-!
Verification development for the spdlog logging core
(files: include/spdlog/logger.h and the hourly rotating file sink).

The definitions below are a shallow embedding of the C++ source.
Machine integers are modelled as Int / Nat; C++ exceptions are modelled
as an explicit `Fault` value threaded through the dispatch; wall-clock
time is modelled as integer seconds since the epoch.  External OS and
library facilities that the repository only calls (localtime, mktime,
strftime, the fmt formatting engine, the file helper) are modelled from
the specification of their interfaces, as noted in the doc comments.
-/

namespace Spdlog

/-- Severity levels of spdlog, in declaration order of the C++ enum
(trace=0, debug=1, info=2, warn=3, err=4, critical=5, off=6). -/
inductive Level where
  | trace
  | debug
  | info
  | warn
  | err
  | critical
  | off
deriving DecidableEq

/-- Numeric value of a level, as in the C++ enum; the C++ code compares
levels by this integer value. -/
def Level.toNat : Level → Nat
  | .trace => 0
  | .debug => 1
  | .info => 2
  | .warn => 3
  | .err => 4
  | .critical => 5
  | .off => 6

/-- A C++ exception as seen by the catch clauses of logger::log:
either a std::exception carrying a message (caught by
catch (const std::exception&)) or any other thrown value
(caught by catch (...)). -/
inductive Fault where
  | known (msg : String)
  | unknown
deriving DecidableEq

/-- Model of one attached sink, as used by logger::_sink_it.
shouldLog models the sink member function should_log (an arbitrary
per-sink gate); logFault models the behaviour of sink->log(msg):
none means it returns normally, some f means it throws f. -/
structure Sink where
  shouldLog : Level → Bool
  logFault : Option Fault

/-- Embedding of logger::should_log: msg_level >= _level, compared on
the numeric enum values (the atomic load is irrelevant to the value). -/
def should_log (levelT lvl : Level) : Bool :=
  decide (levelT.toNat ≤ lvl.toNat)

/-- Embedding of logger::_should_flush_on:
(msg.level >= flush_level) && (msg.level != level::off). -/
def should_flush_on (flushT lvl : Level) : Bool :=
  decide (flushT.toNat ≤ lvl.toNat) && decide (lvl ≠ Level.off)

/-- Result of running the per-sink loop of logger::_sink_it.
checked records (in order) the indices of sinks whose should_log was
consulted; offered records the indices of sinks whose log(msg) was
invoked; fault is the first exception escaping a sink->log call,
which aborts the loop (there is no per-sink try/catch in the source). -/
structure SinkRun where
  checked : List Nat
  offered : List Nat
  fault : Option Fault
deriving DecidableEq

/-- The sink loop of logger::_sink_it, starting at index i:
for each sink, if sink->should_log(msg.level) then sink->log(msg);
a throwing sink->log terminates the loop with that fault. -/
def runSinksAux (lvl : Level) : Nat → List Sink → SinkRun
  | _, [] => ⟨[], [], none⟩
  | i, s :: rest =>
    if s.shouldLog lvl then
      match s.logFault with
      | some f => ⟨[i], [i], some f⟩
      | none =>
        let r := runSinksAux lvl (i + 1) rest
        ⟨i :: r.checked, i :: r.offered, r.fault⟩
    else
      let r := runSinksAux lvl (i + 1) rest
      ⟨i :: r.checked, r.offered, r.fault⟩

/-- Result of logger::_sink_it: which sinks were consulted and offered
the record, which sinks were flushed (logger::flush iterates all sinks
in attachment order), and the exception escaping _sink_it, if any. -/
structure DispatchResult where
  checked : List Nat
  offered : List Nat
  flushed : List Nat
  fault : Option Fault
deriving DecidableEq

/-- Embedding of logger::_sink_it.  fmtFault models the behaviour of
the formatting stage (_formatter->format and the raw payload write):
some f means formatting throws f before any sink is touched.
After the sink loop completes normally, _should_flush_on decides
whether logger::flush() runs, which flushes every sink in order. -/
def sink_it (lvl flushT : Level) (fmtFault : Option Fault) (sinks : List Sink) :
    DispatchResult :=
  match fmtFault with
  | some f => ⟨[], [], [], some f⟩
  | none =>
    let r := runSinksAux lvl 0 sinks
    match r.fault with
    | some f => ⟨r.checked, r.offered, [], some f⟩
    | none =>
      ⟨r.checked, r.offered,
        if should_flush_on flushT lvl then List.range sinks.length else [],
        none⟩

/-- Observable outcome of one call to logger::log.
recordConstructed: whether the log_msg object was built (false when the
severity gate rejects the call); handlerMsgs: the strings passed to
_err_handler; rethrown: whether the call re-raises the fault to the
caller (the catch (...) path ends in a bare throw). -/
structure LogOutcome where
  recordConstructed : Bool
  checked : List Nat
  offered : List Nat
  flushed : List Nat
  handlerMsgs : List String
  rethrown : Bool
deriving DecidableEq

/-- The two catch clauses of logger::log applied to the dispatch result:
catch (const std::exception& ex) calls _err_handler(ex.what()) and
returns; catch (...) calls _err_handler("Unknown exception in logger "
+ _name) and rethrows. -/
def applyCatch (name : String) (d : DispatchResult) : LogOutcome :=
  match d.fault with
  | none => ⟨true, d.checked, d.offered, d.flushed, [], false⟩
  | some (Fault.known m) => ⟨true, d.checked, d.offered, d.flushed, [m], false⟩
  | some Fault.unknown =>
      ⟨true, d.checked, d.offered, d.flushed,
        ["Unknown exception in logger " ++ name], true⟩

/-- Embedding of logger::log: the severity gate, followed by record
construction and dispatch inside try/catch. -/
def loggerLog (name : String) (levelT flushT lvl : Level)
    (fmtFault : Option Fault) (sinks : List Sink) : LogOutcome :=
  if should_log levelT lvl then
    applyCatch name (sink_it lvl flushT fmtFault sinks)
  else
    ⟨false, [], [], [], [], false⟩

/-- Logger constructor default for _level (logger.h line 47). -/
def ctor_level : Level := Level.info

/-- Logger constructor default for _flush_level (logger.h line 48). -/
def ctor_flush_level : Level := Level.off

/-- A sink that accepts every level and never throws. -/
def okSink : Sink := ⟨fun _ => true, none⟩

/-- A sink that accepts every level and always throws a
std::exception with message "sink failure" from log(). -/
def badSink : Sink := ⟨fun _ => true, some (Fault.known "sink failure")⟩

/-- Indices (starting at i) of the sinks in the list whose should_log
gate passes at the given level; when no sink throws, these are exactly
the sinks whose log(msg) is invoked. -/
def okIndices (lvl : Level) : Nat → List Sink → List Nat
  | _, [] => []
  | i, s :: rest =>
    if s.shouldLog lvl then i :: okIndices lvl (i + 1) rest
    else okIndices lvl (i + 1) rest

/-- Decimal digits of a natural number, most significant first, with a
fuel argument (fuel n suffices whenever the number is below the fuel);
this mirrors the decimal rendering performed by the external fmt
library and by strftime. -/
def decDigitsAux : Nat → Nat → List Char
  | 0, _ => []
  | fuel + 1, n =>
    if n < 10 then [Nat.digitChar n]
    else decDigitsAux fuel (n / 10) ++ [Nat.digitChar (n % 10)]

/-- Decimal digits of a natural number, most significant first. -/
def decDigits (n : Nat) : List Char := decDigitsAux (n + 1) n

/-- Modelled from the spec: the fmt width specifier \x7b:0Nd\x7d of the
external fmt formatting engine, described by the spec as N-digit
zero-padded decimal output (minimum width N, zero filled). -/
def padZNat (w n : Nat) : List Char :=
  List.replicate (w - (decDigits n).length) '0' ++ decDigits n

/-- Zero-padded decimal rendering of an integer with minimum width w;
negative values carry a leading minus sign, as in the fmt engine. -/
def padZInt (w : Nat) (v : Int) : List Char :=
  if v < 0 then '-' :: padZNat (w - 1) v.natAbs else padZNat w v.natAbs

/-- Plain decimal rendering of an integer (no minimum width). -/
def intDec (v : Int) : List Char := padZInt 0 v

/-- Value denoted by a decimal digit string (used to state what the
padded fields of a generated filename mean). -/
def parseDecAux : List Char → Nat → Nat
  | [], acc => acc
  | c :: rest, acc => parseDecAux rest (acc * 10 + (c.toNat - 48))

/-- Value denoted by a decimal digit string. -/
def parseDec (s : String) : Nat := parseDecAux s.data 0

/-- An argument to a fmt format string: a string or an integer. -/
inductive FmtArg where
  | s (v : String)
  | n (v : Int)

/-- Rendering of one fmt argument at a given minimum width. -/
def renderArg : FmtArg → Nat → List Char
  | .s v, _ => v.data
  | .n v, w => padZInt w v

/-- Modelled from the spec: the replacement-field interpolation of the
external fmt engine, for the hole forms \x7b\x7d and \x7b:0Nd\x7d used
by this repository (each hole consumes the next argument in order). -/
def fmtWriteAux : List Char → List FmtArg → List Char
  | '\x7b' :: '\x7d' :: rest, a :: args => renderArg a 0 ++ fmtWriteAux rest args
  | '\x7b' :: ':' :: '0' :: w :: 'd' :: '\x7d' :: rest, a :: args =>
      renderArg a (w.toNat - 48) ++ fmtWriteAux rest args
  | c :: rest, args => c :: fmtWriteAux rest args
  | [], _ => []

/-- fmt interpolation over a format string. -/
def fmtWrite (f : String) (args : List FmtArg) : String := ⟨fmtWriteAux f.data args⟩

/-- The broken-down local time fields used by this repository, as in
the C std::tm: tm_year counts years since 1900 and tm_mon counts
months from 0. -/
structure Tm where
  tm_year : Int
  tm_mon : Int
  tm_mday : Int
  tm_hour : Int
  tm_min : Int
  tm_sec : Int
deriving DecidableEq

/-- Modelled from the spec: the conversion specifiers of the C library
strftime used by the repository (%Y year, zero-padded two-digit
%m %d %H %M %S). -/
def strftimeSpec (tm : Tm) : Char → List Char
  | 'Y' => intDec (tm.tm_year + 1900)
  | 'm' => padZInt 2 (tm.tm_mon + 1)
  | 'd' => padZInt 2 tm.tm_mday
  | 'H' => padZInt 2 tm.tm_hour
  | 'M' => padZInt 2 tm.tm_min
  | 'S' => padZInt 2 tm.tm_sec
  | c => ['%', c]

/-- Modelled from the spec: the C library strftime loop. -/
def strftimeAux (tm : Tm) : List Char → List Char
  | '%' :: c :: rest => strftimeSpec tm c ++ strftimeAux tm rest
  | c :: rest => c :: strftimeAux tm rest
  | [] => []

/-- strftime over a format string. -/
def strftime (f : String) (tm : Tm) : String := ⟨strftimeAux tm f.data⟩

/-- Modelled from the spec: OS local-time conversion
(spdlog::details::os::localtime, std::mktime), declared out of scope by
the spec and not present under src.  A time model fixes a constant
local-time offset off (seconds east of UTC) and provides the standard
localtime / mktime field equations: the sub-day fields of localtime t
are the hour, minute and second of t + off, dateOffset abstracts the
day number encoded by the calendar fields, and mktime inverts the
breakdown.  Wall-clock instants are integer seconds since the epoch. -/
structure TimeModel where
  off : Int
  dateOffset : Tm → Int
  localtime : Int → Tm
  mktime : Tm → Int
  localtime_hour : ∀ t : Int, (localtime t).tm_hour = (t + off) % 86400 / 3600
  localtime_min : ∀ t : Int, (localtime t).tm_min = (t + off) % 3600 / 60
  localtime_sec : ∀ t : Int, (localtime t).tm_sec = (t + off) % 60
  localtime_date : ∀ t : Int, dateOffset (localtime t) = (t + off) / 86400
  mktime_eq : ∀ tm : Tm, mktime tm =
    86400 * dateOffset tm + 3600 * tm.tm_hour + 60 * tm.tm_min + tm.tm_sec - off
  dateOffset_congr : ∀ a b : Tm, a.tm_year = b.tm_year → a.tm_mon = b.tm_mon →
    a.tm_mday = b.tm_mday → dateOffset a = dateOffset b

/-- A concrete time model (offset zero, days encoded in tm_mday),
used to evaluate the time-dependent theorems on concrete instants. -/
def simpleTM : TimeModel where
  off := 0
  dateOffset := fun tm => tm.tm_mday - 1
  localtime := fun t => ⟨70, 0, t / 86400 + 1, t % 86400 / 3600, t % 3600 / 60, t % 60⟩
  mktime := fun tm => 86400 * (tm.tm_mday - 1) + 3600 * tm.tm_hour + 60 * tm.tm_min + tm.tm_sec
  localtime_hour := by intro t; simp
  localtime_min := by intro t; simp
  localtime_sec := by intro t; simp
  localtime_date := by intro t; simp
  mktime_eq := by intro tm; simp
  dateOffset_congr := by intro a b h1 h2 h3; simp [h3]

/-- Modelled from the spec: details::file_helper::split_by_extenstion
(not under src), described by the spec as splitting the base filename
at its last extension separator; a name with no separator has an empty
extension. -/
def splitExtAux : List Char → Option (List Char × List Char)
  | [] => none
  | c :: rest =>
    match splitExtAux rest with
    | some p => some (c :: p.1, p.2)
    | none => if c = '.' then some ([], rest) else none

/-- Split a filename into stem and extension at the last separator. -/
def split_by_extenstion (f : String) : String × String :=
  match splitExtAux f.data with
  | some p => (⟨p.1⟩, ⟨'.' :: p.2⟩)
  | none => (f, "")

/-- The format string of houronly_daily_file_name_calculator. -/
def hourly_name_fmt : String :=
  "\x7b\x7d_\x7b:04d\x7d-\x7b:02d\x7d-\x7b:02d\x7d-\x7b:02d\x7d\x7b\x7d"

/-- Embedding of houronly_daily_file_name_calculator::calc_filename,
applied to the broken-down local time of the moment of the call:
basename and extension around an underscore-prefixed timestamp
year-month-day-hour, via the fmt interpolation above. -/
def calc_filename (base : String) (tm : Tm) : String :=
  fmtWrite hourly_name_fmt
    [FmtArg.s (split_by_extenstion base).1, FmtArg.n (tm.tm_year + 1900),
      FmtArg.n (tm.tm_mon + 1), FmtArg.n tm.tm_mday, FmtArg.n tm.tm_hour,
      FmtArg.s (split_by_extenstion base).2]

/-- Zero the minute and second fields of a broken-down time, as the
body of hourly_file_sink::_next_rotation_tp does. -/
def zero_min_sec (tm : Tm) : Tm :=
  ⟨tm.tm_year, tm.tm_mon, tm.tm_mday, tm.tm_hour, 0, 0⟩

/-- Embedding of hourly_file_sink::_next_rotation_tp: take now plus one
hour, break it down in local time, zero minutes and seconds, and
convert back with mktime. -/
def next_rotation_tp (TM : TimeModel) (now : Int) : Int :=
  TM.mktime (zero_min_sec (TM.localtime (now + 3600)))

/-- Mutable state of the hourly file sink: the rotation deadline and
the name of the currently open file. -/
structure HourlyState where
  rotation_tp : Int
  current_file : String
deriving DecidableEq

/-- Observable events of one hourly_file_sink::_sink_it call: the files
opened during the call, the file actually written with the payload,
and whether the write was followed by a flush. -/
structure HourlyEvents where
  opened : List String
  wrote_file : String
  wrote_payload : String
  flushed : Bool
deriving DecidableEq

/-- Embedding of hourly_file_sink::_sink_it: if now has reached the
rotation deadline, open the file named for the current local time and
recompute the deadline; then write, and flush when force_flush is
set. -/
def hourly_sink_it (TM : TimeModel) (base : String) (force_flush : Bool)
    (st : HourlyState) (now : Int) (payload : String) :
    HourlyState × HourlyEvents :=
  if st.rotation_tp ≤ now then
    (⟨next_rotation_tp TM now, calc_filename base (TM.localtime now)⟩,
      ⟨[calc_filename base (TM.localtime now)], calc_filename base (TM.localtime now),
        payload, force_flush⟩)
  else
    (st, ⟨[], st.current_file, payload, force_flush⟩)

/-- Embedding of the hourly_file_sink constructor: compute the first
rotation deadline and open the file named for the current local
time. -/
def hourly_file_sink_init (TM : TimeModel) (base : String) (now : Int) : HourlyState :=
  ⟨next_rotation_tp TM now, calc_filename base (TM.localtime now)⟩

/-- One diagnostic emission of the default error handler: the flag
records that the destination is the process error stream
(stderr_sink_mt), and text is the full line written. -/
structure ErrEmit where
  toStderr : Bool
  text : String
deriving DecidableEq

/-- The fmt format string of logger::_default_err_handler. -/
def err_fmt : String := "[*** LOG ERROR ***] [\x7b\x7d] [\x7b\x7d] [\x7b\x7d]\x7b\x7d"

/-- The strftime format string of logger::_default_err_handler. -/
def err_time_fmt : String := "%Y-%m-%d %H:%M:%S"

/-- Embedding of logger::_default_err_handler: if fewer than 60 seconds
have passed since the last emission, return without emitting and keep
_last_err_time; otherwise format and emit one diagnostic line to the
error stream and set _last_err_time to now.  eol models the platform
line ending details::os::default_eol. -/
def default_err_handler (TM : TimeModel) (name eol : String)
    (last_err_time now : Int) (msg : String) : Option ErrEmit × Int :=
  if now - last_err_time < 60 then (none, last_err_time)
  else
    (some ⟨true, fmtWrite err_fmt
        [FmtArg.s name, FmtArg.s msg,
          FmtArg.s (strftime err_time_fmt (TM.localtime now)), FmtArg.s eol]⟩,
      now)

/-- The diagnostic timestamp as the spec states it: local year, then
zero-padded two-digit month, day, hour, minute and second in the
layout YYYY-MM-DD HH:MM:SS. -/
def spec_err_timestamp (tm : Tm) : String :=
  (⟨intDec (tm.tm_year + 1900)⟩ : String) ++ "-" ++ (⟨padZInt 2 (tm.tm_mon + 1)⟩ : String)
    ++ "-" ++ (⟨padZInt 2 tm.tm_mday⟩ : String) ++ " " ++ (⟨padZInt 2 tm.tm_hour⟩ : String)
    ++ ":" ++ (⟨padZInt 2 tm.tm_min⟩ : String) ++ ":" ++ (⟨padZInt 2 tm.tm_sec⟩ : String)

/-- The broken-down local time 2024-01-01 13:45:00, used to evaluate
the filename theorem on the concrete scenario of the spec. -/
def tm24 : Tm := ⟨124, 0, 1, 13, 45, 0⟩

theorem applyCatch_flushed (name : String) (d : DispatchResult) :
    (applyCatch name d).flushed = d.flushed := by
  rcases d with ⟨c, o, fl, fa⟩
  rcases fa with _ | g
  · rfl
  · cases g <;> rfl

theorem applyCatch_offered (name : String) (d : DispatchResult) :
    (applyCatch name d).offered = d.offered := by
  rcases d with ⟨c, o, fl, fa⟩
  rcases fa with _ | g
  · rfl
  · cases g <;> rfl

theorem runSinks_fault_none (lvl : Level) :
    ∀ (sinks : List Sink) (i : Nat), (∀ s ∈ sinks, s.logFault = none) →
      (runSinksAux lvl i sinks).fault = none
  | [], _, _ => rfl
  | s :: rest, i, h => by
    have hs : s.logFault = none := h s (by simp)
    have ih := runSinks_fault_none lvl rest (i + 1) (fun t ht => h t (by simp [ht]))
    by_cases hb : s.shouldLog lvl <;> simp [runSinksAux, hb, hs, ih]

theorem runSinks_first_fault (lvl : Level) (bad : Sink) (post : List Sink) (f : Fault)
    (hb1 : bad.shouldLog lvl = true) (hb2 : bad.logFault = some f) :
    ∀ (pre : List Sink) (i : Nat), (∀ s ∈ pre, s.logFault = none) →
      runSinksAux lvl i (pre ++ bad :: post) =
        ⟨List.range' i (pre.length + 1), okIndices lvl i pre ++ [i + pre.length], some f⟩
  | [], i, _ => by
    simp [runSinksAux, hb1, hb2, okIndices]
  | s :: pre, i, hpre => by
    have hs0 : s.logFault = none := hpre s (by simp)
    have ih := runSinks_first_fault lvl bad post f hb1 hb2 pre (i + 1)
      (fun t ht => hpre t (by simp [ht]))
    by_cases hs : s.shouldLog lvl <;>
      simp [runSinksAux, hs, hs0, ih, okIndices, List.range'_succ] <;>
      omega

theorem okIndices_mem_lt (lvl : Level) :
    ∀ (pre : List Sink) (i j : Nat), j ∈ okIndices lvl i pre → j < i + pre.length
  | [], i, j, h => by simp [okIndices] at h
  | s :: pre, i, j, h => by
    by_cases hs : s.shouldLog lvl
    · simp only [okIndices, hs, if_true, List.mem_cons, List.length_cons] at h ⊢
      rcases h with h | h
      · omega
      · have := okIndices_mem_lt lvl pre (i + 1) j h
        omega
    · simp only [okIndices, hs, if_false, Bool.false_eq_true, List.length_cons] at h ⊢
      have := okIndices_mem_lt lvl pre (i + 1) j h
      omega

theorem fmtWrite_err_fmt (a b c d : String) :
    fmtWrite err_fmt [FmtArg.s a, FmtArg.s b, FmtArg.s c, FmtArg.s d] =
      "[*** LOG ERROR ***] [" ++ a ++ "] [" ++ b ++ "] [" ++ c ++ "]" ++ d := by
  apply String.ext
  simp [fmtWrite, err_fmt, fmtWriteAux, renderArg, String.data_append]

theorem strftime_err_time_fmt (tm : Tm) :
    strftime err_time_fmt tm = spec_err_timestamp tm := by
  apply String.ext
  simp [strftime, err_time_fmt, strftimeAux, strftimeSpec, spec_err_timestamp,
    String.data_append]

/-- C2: a log call whose severity is strictly below the severity
threshold returns immediately: no record is constructed, no sink
should_log or log is consulted, nothing is flushed, the error handler
is not invoked, and this holds regardless of the formatting stage. -/
theorem c2_severity_gate_drops_call (name : String) (levelT flushT lvl : Level)
    (fmtFault : Option Fault) (sinks : List Sink)
    (h : lvl.toNat < levelT.toNat) :
    loggerLog name levelT flushT lvl fmtFault sinks = ⟨false, [], [], [], [], false⟩ := by
  have hb : should_log levelT lvl = false := by
    simp [should_log]
    omega
  simp [loggerLog, hb]

theorem c2_severity_gate_drops_call_witness :
    Level.debug.toNat < Level.info.toNat ∧
      loggerLog "console" Level.info Level.off Level.debug none [okSink] =
        ⟨false, [], [], [], [], false⟩ :=
  ⟨by decide,
    c2_severity_gate_drops_call "console" Level.info Level.off Level.debug none [okSink]
      (by decide)⟩

/-- C1 counterexample: a logger with two sinks, the first of which
throws from log(); the second, healthy sink never receives the record
(only sink 0 is offered it), refuting the claim that a failure in one
sink does not prevent delivery to the sinks after it. -/
theorem c1_counterexample_no_isolation :
    (loggerLog "logger" Level.info Level.off Level.info none [badSink, okSink]).offered = [0] ∧
      1 ∉ (loggerLog "logger" Level.info Level.off Level.info none [badSink, okSink]).offered := by
  constructor <;> decide

/-- C1 amended: there is no per-sink isolation.  If the sinks are
pre ++ bad :: post where every sink of pre returns normally and bad
throws from log(), then the record is offered exactly to the passing
sinks of pre and to bad, every sink after bad receives nothing for
that call, and no flush occurs; the fault is handled at the whole-call
boundary of logger::log. -/
theorem c1_amended_sink_fault_stops_later_sinks (name : String)
    (levelT flushT lvl : Level) (pre : List Sink) (bad : Sink) (post : List Sink)
    (f : Fault) (hgate : should_log levelT lvl = true)
    (hpre : ∀ s ∈ pre, s.logFault = none)
    (hb1 : bad.shouldLog lvl = true) (hb2 : bad.logFault = some f) :
    (loggerLog name levelT flushT lvl none (pre ++ bad :: post)).offered =
        okIndices lvl 0 pre ++ [pre.length] ∧
      (loggerLog name levelT flushT lvl none (pre ++ bad :: post)).flushed = [] ∧
      ∀ j ∈ (loggerLog name levelT flushT lvl none (pre ++ bad :: post)).offered,
        j ≤ pre.length := by
  have hr := runSinks_first_fault lvl bad post f hb1 hb2 pre 0 hpre
  have houter : loggerLog name levelT flushT lvl none (pre ++ bad :: post) =
      applyCatch name ⟨List.range' 0 (pre.length + 1),
        okIndices lvl 0 pre ++ [0 + pre.length], [], some f⟩ := by
    simp [loggerLog, hgate, sink_it, hr]
  refine ⟨?_, ?_, ?_⟩
  · rw [houter, applyCatch_offered]
    simp
  · rw [houter, applyCatch_flushed]
  · intro j hj
    rw [houter, applyCatch_offered] at hj
    simp at hj
    rcases hj with hj | hj
    · have := okIndices_mem_lt lvl pre 0 j hj
      omega
    · omega

theorem c1_amended_sink_fault_stops_later_sinks_witness :
    (∀ s ∈ [okSink], s.logFault = none) ∧
      ((loggerLog "logger" Level.info Level.off Level.info none
            ([okSink] ++ badSink :: [okSink])).offered =
          okIndices Level.info 0 [okSink] ++ [List.length [okSink]] ∧
        (loggerLog "logger" Level.info Level.off Level.info none
            ([okSink] ++ badSink :: [okSink])).flushed = [] ∧
        ∀ j ∈ (loggerLog "logger" Level.info Level.off Level.info none
            ([okSink] ++ badSink :: [okSink])).offered, j ≤ List.length [okSink]) :=
  ⟨by decide,
    c1_amended_sink_fault_stops_later_sinks "logger" Level.info Level.off Level.info
      [okSink] badSink [okSink] (Fault.known "sink failure")
      (by decide) (by decide) (by decide) (by decide)⟩

/-- C3: when the severity gate passes and the formatting stage and all
sinks return normally, flush() runs on every attached sink in
attachment order exactly when the severity is at least the flush
threshold and differs from off. -/
theorem c3_flush_predicate (name : String) (levelT flushT lvl : Level)
    (sinks : List Sink) (hgate : should_log levelT lvl = true)
    (hok : ∀ s ∈ sinks, s.logFault = none) :
    (loggerLog name levelT flushT lvl none sinks).flushed =
      if flushT.toNat ≤ lvl.toNat ∧ lvl ≠ Level.off then List.range sinks.length
      else [] := by
  have hf := runSinks_fault_none lvl sinks 0 hok
  have houter : loggerLog name levelT flushT lvl none sinks =
      applyCatch name ⟨(runSinksAux lvl 0 sinks).checked, (runSinksAux lvl 0 sinks).offered,
        if should_flush_on flushT lvl then List.range sinks.length else [], none⟩ := by
    simp [loggerLog, hgate, sink_it, hf]
  rw [houter, applyCatch_flushed]
  by_cases hc : flushT.toNat ≤ lvl.toNat ∧ lvl ≠ Level.off
  · simp [should_flush_on, hc.1, hc.2, hc]
  · simp only [should_flush_on]
    rw [if_neg hc]
    rcases Decidable.not_and_iff_or_not.mp hc with h1 | h1 <;> simp [h1]

theorem c3_flush_predicate_witness :
    should_log Level.info Level.warn = true ∧
      (∀ s ∈ [okSink, okSink], s.logFault = none) ∧
      (loggerLog "logger" Level.info Level.warn Level.warn none [okSink, okSink]).flushed =
        (if Level.warn.toNat ≤ Level.warn.toNat ∧ Level.warn ≠ Level.off then
          List.range (List.length [okSink, okSink]) else []) :=
  ⟨by decide, by decide,
    c3_flush_predicate "logger" Level.info Level.warn Level.warn [okSink, okSink]
      (by decide) (by decide)⟩

/-- C4: when the severity gate passes and a fault escapes formatting or
sink dispatch, a std::exception is absorbed: its message is passed to
the error handler and the call returns normally; any other fault is
passed to the error handler as a descriptive string and then re-raised
to the caller. -/
theorem c4_fault_handling_asymmetry (name : String) (levelT flushT lvl : Level)
    (fmtFault : Option Fault) (sinks : List Sink) (m : String)
    (hgate : should_log levelT lvl = true) :
    ((sink_it lvl flushT fmtFault sinks).fault = some (Fault.known m) →
      (loggerLog name levelT flushT lvl fmtFault sinks).handlerMsgs = [m] ∧
        (loggerLog name levelT flushT lvl fmtFault sinks).rethrown = false) ∧
    ((sink_it lvl flushT fmtFault sinks).fault = some Fault.unknown →
      (loggerLog name levelT flushT lvl fmtFault sinks).handlerMsgs =
          ["Unknown exception in logger " ++ name] ∧
        (loggerLog name levelT flushT lvl fmtFault sinks).rethrown = true) := by
  constructor <;> intro hf <;> constructor <;> simp [loggerLog, hgate, applyCatch, hf]

theorem c4_fault_handling_asymmetry_witness :
    should_log Level.info Level.info = true ∧
      ((sink_it Level.info Level.off (some (Fault.known "format error")) [okSink]).fault =
          some (Fault.known "format error") ∧
        (loggerLog "logger" Level.info Level.off Level.info
            (some (Fault.known "format error")) [okSink]).handlerMsgs = ["format error"] ∧
        (loggerLog "logger" Level.info Level.off Level.info
            (some (Fault.known "format error")) [okSink]).rethrown = false) :=
  ⟨by decide,
    by
      refine ⟨by decide, ?_⟩
      exact (c4_fault_handling_asymmetry "logger" Level.info Level.off Level.info
          (some (Fault.known "format error")) [okSink] "format error" (by decide)).1
        (by decide)⟩

/-- C10: a freshly constructed logger has severity threshold info and
flush threshold off; trace and debug calls are dropped by the gate, and
no log call on a default-configured logger ever flushes a sink. -/
theorem c10_constructor_defaults (name : String) (lvl : Level)
    (fmtFault : Option Fault) (sinks : List Sink) :
    loggerLog name ctor_level ctor_flush_level Level.trace fmtFault sinks =
        ⟨false, [], [], [], [], false⟩ ∧
      loggerLog name ctor_level ctor_flush_level Level.debug fmtFault sinks =
        ⟨false, [], [], [], [], false⟩ ∧
      (loggerLog name ctor_level ctor_flush_level lvl fmtFault sinks).flushed = [] := by
  have hsf : should_flush_on ctor_flush_level lvl = false := by
    cases lvl <;> decide
  refine ⟨?_, ?_, ?_⟩
  · simp [loggerLog, should_log, ctor_level, Level.toNat]
  · simp [loggerLog, should_log, ctor_level, Level.toNat]
  · by_cases hg : should_log ctor_level lvl
    · rcases fmtFault with _ | g
      · rcases hrf : (runSinksAux lvl 0 sinks).fault with _ | g2 <;>
          simp [loggerLog, hg, sink_it, hrf, hsf, applyCatch_flushed]
      · simp [loggerLog, hg, sink_it, applyCatch_flushed]
    · simp [loggerLog, hg]

/-- C5: the default error handler emits at most one diagnostic line
per 60 wall-clock seconds measured from the last emission: a call
strictly less than 60 seconds after the last emission emits nothing
and keeps the stored emission time, and a call 60 or more seconds
after the last emission emits exactly one line and stores its own
time. -/
theorem c5_default_handler_rate_limit (TM : TimeModel) (name eol msg : String)
    (last now : Int) :
    (now - last < 60 →
      default_err_handler TM name eol last now msg = (none, last)) ∧
    (60 ≤ now - last →
      ((default_err_handler TM name eol last now msg).1).isSome = true ∧
        (default_err_handler TM name eol last now msg).2 = now) := by
  constructor
  · intro h
    simp [default_err_handler, h]
  · intro h
    have hc : ¬ (now - last < 60) := by omega
    simp [default_err_handler, hc]

theorem c5_default_handler_rate_limit_witness :
    (default_err_handler simpleTM "logger" "\n" 0 59 "boom" = (none, 0)) ∧
      ((default_err_handler simpleTM "logger" "\n" 0 60 "boom").1.isSome = true ∧
        (default_err_handler simpleTM "logger" "\n" 0 60 "boom").2 = 60) :=
  ⟨(c5_default_handler_rate_limit simpleTM "logger" "\n" "boom" 0 59).1 (by decide),
    (c5_default_handler_rate_limit simpleTM "logger" "\n" "boom" 0 60).2 (by decide)⟩

/-- C9: every diagnostic line the default error handler emits goes to
the process error stream and has exactly the form
[*** LOG ERROR ***] [logger_name] [message] [timestamp]eol, with the
timestamp the local wall-clock time of emission in the layout
YYYY-MM-DD HH:MM:SS. -/
theorem c9_default_handler_line_format (TM : TimeModel) (name msg eol : String)
    (last now : Int) (h : 60 ≤ now - last) :
    (default_err_handler TM name eol last now msg).1 =
      some ⟨true, "[*** LOG ERROR ***] [" ++ name ++ "] [" ++ msg ++ "] [" ++
        spec_err_timestamp (TM.localtime now) ++ "]" ++ eol⟩ := by
  have hc : ¬ (now - last < 60) := by omega
  have hl := fmtWrite_err_fmt name msg (strftime err_time_fmt (TM.localtime now)) eol
  unfold default_err_handler
  rw [if_neg hc, hl, strftime_err_time_fmt]

theorem c9_default_handler_line_format_witness :
    (60:Int) ≤ 100 - 0 ∧
      (default_err_handler simpleTM "logger" "\n" 0 100 "disk full").1 =
        some ⟨true, "[*** LOG ERROR ***] [" ++ "logger" ++ "] [" ++ "disk full" ++ "] [" ++
          spec_err_timestamp (simpleTM.localtime 100) ++ "]" ++ "\n"⟩ :=
  ⟨by decide,
    c9_default_handler_line_format simpleTM "logger" "disk full" "\n" 0 100 (by decide)⟩

/-- C6: rotation is checked on each write; if at least one whole
rotation period has passed since the stored deadline (N missed periods
for any N at least 1), the next write performs exactly one rotation,
opening exactly the one file named for the current local time, and
recomputes the deadline from the current time. -/
theorem c6_catchup_single_rotation (TM : TimeModel) (base payload : String)
    (ff : Bool) (st : HourlyState) (now : Int) (n : Nat) (hn : 1 ≤ n)
    (hgap : st.rotation_tp + 3600 * (n : Int) ≤ now) :
    (hourly_sink_it TM base ff st now payload).2.opened =
        [calc_filename base (TM.localtime now)] ∧
      ((hourly_sink_it TM base ff st now payload).2.opened).length = 1 ∧
      (hourly_sink_it TM base ff st now payload).1.rotation_tp =
        next_rotation_tp TM now := by
  have hle : st.rotation_tp ≤ now := by omega
  simp [hourly_sink_it, hle]

theorem c6_catchup_single_rotation_witness :
    1 ≤ 1 ∧ (3600:Int) + 3600 * ((1:Nat) : Int) ≤ 7300 ∧
      ((hourly_sink_it simpleTM "app.log" false ⟨3600, "app_1970-01-01-00.log"⟩
          7300 "hello").2.opened =
        [calc_filename "app.log" (simpleTM.localtime 7300)] ∧
      ((hourly_sink_it simpleTM "app.log" false ⟨3600, "app_1970-01-01-00.log"⟩
          7300 "hello").2.opened).length = 1 ∧
      (hourly_sink_it simpleTM "app.log" false ⟨3600, "app_1970-01-01-00.log"⟩
          7300 "hello").1.rotation_tp = next_rotation_tp simpleTM 7300) :=
  ⟨by decide, by decide,
    c6_catchup_single_rotation simpleTM "app.log" "hello" false
      ⟨3600, "app_1970-01-01-00.log"⟩ 7300 1 (by decide) (by decide)⟩

/-- C8: every computed rotation deadline (current time plus one hour
with the local minute and second fields zeroed) is strictly in the
future relative to the moment it is computed and is exactly aligned to
the top of a local hour: its local minute and second are zero. -/
theorem c8_deadline_future_and_aligned (TM : TimeModel) (now : Int) :
    now < next_rotation_tp TM now ∧
      next_rotation_tp TM now = now + 3600 - (now + 3600 + TM.off) % 3600 ∧
      (next_rotation_tp TM now + TM.off) % 3600 = 0 ∧
      (TM.localtime (next_rotation_tp TM now)).tm_min = 0 ∧
      (TM.localtime (next_rotation_tp TM now)).tm_sec = 0 := by
  have hmk := TM.mktime_eq (zero_min_sec (TM.localtime (now + 3600)))
  have hdo : TM.dateOffset (zero_min_sec (TM.localtime (now + 3600))) =
      TM.dateOffset (TM.localtime (now + 3600)) :=
    TM.dateOffset_congr _ _ rfl rfl rfl
  have hdate := TM.localtime_date (now + 3600)
  have hhour := TM.localtime_hour (now + 3600)
  have hval : next_rotation_tp TM now =
      86400 * ((now + 3600 + TM.off) / 86400) +
        3600 * ((now + 3600 + TM.off) % 86400 / 3600) - TM.off := by
    unfold next_rotation_tp
    rw [hmk, hdo, hdate]
    simp [zero_min_sec, hhour]
  have hmin := TM.localtime_min (next_rotation_tp TM now)
  have hsec := TM.localtime_sec (next_rotation_tp TM now)
  refine ⟨by omega, by omega, by omega, by omega, by omega⟩

theorem c8_deadline_future_and_aligned_witness :
    5000 < next_rotation_tp simpleTM 5000 ∧
      next_rotation_tp simpleTM 5000 = 5000 + 3600 - (5000 + 3600 + simpleTM.off) % 3600 ∧
      (next_rotation_tp simpleTM 5000 + simpleTM.off) % 3600 = 0 ∧
      (simpleTM.localtime (next_rotation_tp simpleTM 5000)).tm_min = 0 ∧
      (simpleTM.localtime (next_rotation_tp simpleTM 5000)).tm_sec = 0 :=
  c8_deadline_future_and_aligned simpleTM 5000

theorem decDigitsAux_stable : ∀ (f1 f2 n : Nat), n < f1 → n < f2 →
    decDigitsAux f1 n = decDigitsAux f2 n
  | 0, _, n, h1, _ => absurd h1 (by omega)
  | _ + 1, 0, n, _, h2 => absurd h2 (by omega)
  | f1 + 1, f2 + 1, n, h1, h2 => by
    by_cases hn : n < 10
    · simp [decDigitsAux, hn]
    · have ih := decDigitsAux_stable f1 f2 (n / 10) (by omega) (by omega)
      simp [decDigitsAux, hn, ih]

theorem decDigits_lt10 (n : Nat) (h : n < 10) : decDigits n = [Nat.digitChar n] := by
  simp [decDigits, decDigitsAux, h]

theorem decDigits_ge10 (n : Nat) (h : 10 ≤ n) :
    decDigits n = decDigits (n / 10) ++ [Nat.digitChar (n % 10)] := by
  have hn : ¬ n < 10 := by omega
  have hs := decDigitsAux_stable n (n / 10 + 1) (n / 10) (by omega) (by omega)
  simp [decDigits, decDigitsAux, hn, hs]

theorem decDigits_length_le : ∀ (k n : Nat), 1 ≤ k → n < 10 ^ k →
    (decDigits n).length ≤ k
  | 0, _, hk, _ => absurd hk (by omega)
  | k + 1, n, _, hn => by
    by_cases h : n < 10
    · rw [decDigits_lt10 n h]
      simp only [List.length_singleton]
      omega
    · have h10 : 10 ≤ n := by omega
      rcases Nat.eq_zero_or_pos k with hk0 | hk0
      · subst hk0
        simp at hn
        omega
      · have hdiv : n / 10 < 10 ^ k := by
          apply Nat.div_lt_of_lt_mul
          calc n < 10 ^ (k + 1) := hn
            _ = 10 * 10 ^ k := by ring
        have ih := decDigits_length_le k (n / 10) hk0 hdiv
        rw [decDigits_ge10 n h10]
        simp only [List.length_append, List.length_singleton]
        omega

theorem digitChar_toNat (n : Nat) (h : n < 10) : (Nat.digitChar n).toNat = 48 + n := by
  interval_cases n <;> decide

theorem digitChar_isDigit (n : Nat) (h : n < 10) : (Nat.digitChar n).isDigit = true := by
  interval_cases n <;> decide

theorem decDigits_all_digits (n : Nat) : ∀ c ∈ decDigits n, c.isDigit = true := by
  induction n using Nat.strong_induction_on with
  | _ n ih =>
    by_cases h : n < 10
    · rw [decDigits_lt10 n h]
      intro c hc
      simp at hc
      subst hc
      exact digitChar_isDigit n h
    · have h10 : 10 ≤ n := by omega
      have hd : n / 10 < n := Nat.div_lt_self (by omega) (by omega)
      rw [decDigits_ge10 n h10]
      intro c hc
      rcases List.mem_append.mp hc with hc | hc
      · exact ih (n / 10) hd c hc
      · simp at hc
        subst hc
        exact digitChar_isDigit (n % 10) (Nat.mod_lt _ (by omega))

theorem parseDecAux_append : ∀ (l1 l2 : List Char) (acc : Nat),
    parseDecAux (l1 ++ l2) acc = parseDecAux l2 (parseDecAux l1 acc)
  | [], _, _ => rfl
  | c :: rest, l2, acc => by
    simp [parseDecAux, parseDecAux_append rest l2 (acc * 10 + (c.toNat - 48))]

theorem parseDecAux_decDigits (n : Nat) : ∀ acc : Nat,
    parseDecAux (decDigits n) acc = acc * 10 ^ (decDigits n).length + n := by
  induction n using Nat.strong_induction_on with
  | _ n ih =>
    intro acc
    by_cases h : n < 10
    · rw [decDigits_lt10 n h]
      simp only [parseDecAux, digitChar_toNat n h, List.length_singleton, pow_one]
      omega
    · have h10 : 10 ≤ n := by omega
      have hd : n / 10 < n := Nat.div_lt_self (by omega) (by omega)
      have hm : n % 10 < 10 := Nat.mod_lt _ (by omega)
      rw [decDigits_ge10 n h10, parseDecAux_append, ih (n / 10) hd acc]
      simp only [parseDecAux, digitChar_toNat _ hm, List.length_append,
        List.length_singleton, pow_succ]
      rw [← mul_assoc]
      omega

theorem parseDecAux_replicate_zero : ∀ k : Nat,
    parseDecAux (List.replicate k '0') 0 = 0
  | 0 => rfl
  | k + 1 => by
    have h0 : ('0'.toNat - 48) = 0 := by decide
    simp [List.replicate_succ, parseDecAux, h0, parseDecAux_replicate_zero k]

theorem parseDec_padZNat (w n : Nat) : parseDec ⟨padZNat w n⟩ = n := by
  show parseDecAux (List.replicate (w - (decDigits n).length) '0' ++ decDigits n) 0 = n
  rw [parseDecAux_append, parseDecAux_replicate_zero, parseDecAux_decDigits]
  simp

theorem padZNat_length (w n : Nat) (h : (decDigits n).length ≤ w) :
    (padZNat w n).length = w := by
  simp only [padZNat, List.length_append, List.length_replicate]
  omega

theorem padZNat_all_digits (w n : Nat) : ∀ c ∈ padZNat w n, c.isDigit = true := by
  intro c hc
  rcases List.mem_append.mp hc with hc | hc
  · have := List.eq_of_mem_replicate hc
    subst this
    decide
  · exact decDigits_all_digits n c hc

theorem padZInt_nonneg (w : Nat) (v : Int) (h : 0 ≤ v) :
    padZInt w v = padZNat w v.natAbs := by
  simp [padZInt, show ¬ v < 0 by omega]

theorem padZInt_spec (w : Nat) (v : Int) (hw : 1 ≤ w) (h0 : 0 ≤ v)
    (h1 : v.natAbs < 10 ^ w) :
    (⟨padZInt w v⟩ : String).length = w ∧ parseDec ⟨padZInt w v⟩ = v.toNat ∧
      ∀ c ∈ (⟨padZInt w v⟩ : String).data, c.isDigit = true := by
  rw [padZInt_nonneg w v h0]
  refine ⟨?_, ?_, ?_⟩
  · show (padZNat w v.natAbs).length = w
    exact padZNat_length w _ (decDigits_length_le w _ hw h1)
  · rw [parseDec_padZNat]
    omega
  · show ∀ c ∈ padZNat w v.natAbs, c.isDigit = true
    exact padZNat_all_digits w _

/-- C7: for every base filename and every in-range broken-down local
time, the hourly filename is exactly stem, underscore, the 4-digit
zero-padded year, then dash-separated 2-digit zero-padded month, day
and hour, then the extension, with stem and extension the split of the
base name at its last extension separator; the digit fields denote
exactly the year, month, day and hour of the given time. -/
theorem c7_hourly_filename_format (base : String) (tm : Tm)
    (hy0 : 0 ≤ tm.tm_year + 1900) (hy1 : tm.tm_year + 1900 < 10000)
    (hmo0 : 0 ≤ tm.tm_mon) (hmo1 : tm.tm_mon ≤ 11)
    (hd0 : 1 ≤ tm.tm_mday) (hd1 : tm.tm_mday ≤ 31)
    (hh0 : 0 ≤ tm.tm_hour) (hh1 : tm.tm_hour ≤ 23) :
    ∃ y mo d h : String,
      calc_filename base tm =
          (split_by_extenstion base).1 ++ "_" ++ y ++ "-" ++ mo ++ "-" ++ d ++ "-" ++ h ++
            (split_by_extenstion base).2 ∧
        y.length = 4 ∧ mo.length = 2 ∧ d.length = 2 ∧ h.length = 2 ∧
        parseDec y = (tm.tm_year + 1900).toNat ∧
        parseDec mo = (tm.tm_mon + 1).toNat ∧
        parseDec d = tm.tm_mday.toNat ∧
        parseDec h = tm.tm_hour.toNat ∧
        (∀ c ∈ y.data, c.isDigit = true) ∧ (∀ c ∈ mo.data, c.isDigit = true) ∧
        (∀ c ∈ d.data, c.isDigit = true) ∧ (∀ c ∈ h.data, c.isDigit = true) := by
  have hp4 : (10:Nat) ^ 4 = 10000 := by norm_num
  have hp2 : (10:Nat) ^ 2 = 100 := by norm_num
  have hy := padZInt_spec 4 (tm.tm_year + 1900) (by omega) hy0 (by omega)
  have hmo := padZInt_spec 2 (tm.tm_mon + 1) (by omega) (by omega) (by omega)
  have hd := padZInt_spec 2 tm.tm_mday (by omega) (by omega) (by omega)
  have hh := padZInt_spec 2 tm.tm_hour (by omega) hh0 (by omega)
  refine ⟨⟨padZInt 4 (tm.tm_year + 1900)⟩, ⟨padZInt 2 (tm.tm_mon + 1)⟩,
    ⟨padZInt 2 tm.tm_mday⟩, ⟨padZInt 2 tm.tm_hour⟩, ?_, hy.1, hmo.1, hd.1, hh.1,
    hy.2.1, hmo.2.1, hd.2.1, hh.2.1, hy.2.2, hmo.2.2, hd.2.2, hh.2.2⟩
  have h4 : ('4'.toNat - 48) = 4 := rfl
  have h2 : ('2'.toNat - 48) = 2 := rfl
  apply String.ext
  simp [calc_filename, fmtWrite, hourly_name_fmt, fmtWriteAux, renderArg, h4, h2,
    String.data_append]

theorem c7_hourly_filename_format_witness :
    0 ≤ tm24.tm_year + 1900 ∧ tm24.tm_year + 1900 < 10000 ∧
      calc_filename "app.log" tm24 = "app_2024-01-01-13.log" ∧
      (∃ y mo d h : String,
        calc_filename "app.log" tm24 =
            (split_by_extenstion "app.log").1 ++ "_" ++ y ++ "-" ++ mo ++ "-" ++ d ++ "-" ++
              h ++ (split_by_extenstion "app.log").2 ∧
          y.length = 4 ∧ mo.length = 2 ∧ d.length = 2 ∧ h.length = 2 ∧
          parseDec y = (tm24.tm_year + 1900).toNat ∧
          parseDec mo = (tm24.tm_mon + 1).toNat ∧
          parseDec d = tm24.tm_mday.toNat ∧
          parseDec h = tm24.tm_hour.toNat ∧
          (∀ c ∈ y.data, c.isDigit = true) ∧ (∀ c ∈ mo.data, c.isDigit = true) ∧
          (∀ c ∈ d.data, c.isDigit = true) ∧ (∀ c ∈ h.data, c.isDigit = true)) :=
  ⟨by decide, by decide, by decide,
    c7_hourly_filename_format "app.log" tm24 (by decide) (by decide) (by decide)
      (by decide) (by decide) (by decide) (by decide) (by decide)⟩

end Spdlog
